import Mathlib

/-!
Verification of the android-eBPF trace tooling against its specification.

The development shallowly embeds the Python sources:

* `src/backend/bpftrace_orchestrator.py` — session orchestration
  (`execute_bpftrace`, `_run_command_on_device`, `_push_script_to_device`);
* `src/backend/trace_data_manager.py` — NDJSON parsing and aggregation
  (`parse_json_trace`, `filter_events`, `aggregate_by_pid`,
  `aggregate_by_comm`, `count_events`, `summarize_trace`);
* `src/analyze_trace.py` — the analysis utility
  (`TraceAnalyzer.filter_by_comm`, `export_csv`, `event_timeline`).

Python dictionaries decoded from JSON lines are modelled as association
lists from string keys to scalar `Value`s; Python `None` and JSON `null`
are both modelled by `Value.null` (exactly as in CPython, where
`json.loads` decodes `null` to `None`).  External effects (the adb
transport, the remote process, the filesystem) are modelled as explicit
inputs; logging side effects relevant to the claims (the per-line parse
failure warnings) are modelled as an explicit counter.
-/

namespace EBPF

/-- Scalar values occurring in decoded trace events: strings, integers,
booleans and null.  (`Value.null` also stands for Python `None`.) -/
inductive Value where
  | str (s : String)
  | int (n : Int)
  | bool (b : Bool)
  | null
deriving DecidableEq, Repr

/-- An event decoded from one NDJSON line: a mapping from string keys to
scalar values, modelled as an association list (first binding wins). -/
abbrev Event := List (String × Value)

/-- Python `event.get(k, d)`: the stored value when the key is present,
otherwise the default `d`. -/
def pyGetD (e : Event) (k : String) (d : Value) : Value :=
  (e.lookup k).getD d

/-- Python `event.get(k)`: the stored value when the key is present,
otherwise `None`.  Since JSON `null` decodes to Python `None`, an absent
key and a stored `null` are indistinguishable here, as in the source. -/
def pyGet (e : Event) (k : String) : Value :=
  (e.lookup k).getD .null

/-- Substring containment on character lists, modelling the Python
operator `needle in hay` on strings: some index of `hay` starts an
occurrence of `needle`.  The empty needle is contained in every string. -/
def listContainsSub (needle hay : List Char) : Bool :=
  (List.range (hay.length + 1)).any (fun i => needle.isPrefixOf (hay.drop i))

/-- String form of `listContainsSub`: Python `needle in hay`. -/
def strContains (hay needle : String) : Bool :=
  listContainsSub needle.data hay.data

/-! ## Orchestrator (`src/backend/bpftrace_orchestrator.py`)

The remote side is modelled by the chunks it streams and how the run
ends: a normal exit with a return code, or expiry of the wall-clock
budget (`subprocess.TimeoutExpired`). -/

/-- How a remote command run ends: normal exit with a return code, or
wall-clock timeout (`subprocess.TimeoutExpired` caught in
`_run_command_on_device`). -/
inductive RunOutcome where
  | exited (code : Int)
  | timedOut
deriving DecidableEq, Repr

/-- The behaviour of one remote command execution: the output chunks it
streams (the lines read from the process's stdout) and its outcome. -/
structure RemoteRun where
  lines : List String
  outcome : RunOutcome
deriving Repr

/-- Model of `BPFtraceOrchestrator._run_command_on_device` (lines
81-114): the loop collects the streamed lines; on `TimeoutExpired` the
process is killed and `(False, "Command timed out")` is returned,
discarding `output_lines`; otherwise the joined output is returned with
`success = (returncode == 0)`. -/
def run_command_on_device (r : RemoteRun) : Bool × String :=
  match r.outcome with
  | .timedOut => (false, "Command timed out")
  | .exited code => (code == 0, String.join r.lines)

/-- The environment one `execute_bpftrace` call runs in: whether the
local script exists, whether the adb push succeeds, the remote run's
behaviour, and the local script path (used in the error message). -/
structure ExecEnv where
  scriptExists : Bool
  pushOk : Bool
  remoteRun : RemoteRun
  scriptPath : String

/-- The observable outcome of one `execute_bpftrace` call: the returned
`success` flag and error message, whether a session record was inserted
into `active_traces`, the sequence of `status` values written to that
record, whether push / run were attempted, and the content written to
the session's output file (`None` when no write happens). -/
structure ExecOutcome where
  success : Bool
  error : Option String
  sessionCreated : Bool
  statusHistory : List String
  pushAttempted : Bool
  runAttempted : Bool
  sinkContent : Option String
deriving Repr

/-- Model of `BPFtraceOrchestrator.execute_bpftrace` (lines 141-214):
if the script is missing, return a failure result (no session record,
no remote call); if the push fails, likewise; otherwise insert the
session record with status `"running"`, run the command, write the
returned output to the output file when non-empty, and set the record's
status to `"completed"` unconditionally. -/
def execute_bpftrace (env : ExecEnv) : ExecOutcome :=
  if !env.scriptExists then
    { success := false
      error := some ("Script not found: " ++ env.scriptPath)
      sessionCreated := false
      statusHistory := []
      pushAttempted := false
      runAttempted := false
      sinkContent := none }
  else if !env.pushOk then
    { success := false
      error := some "Failed to push script to device"
      sessionCreated := false
      statusHistory := []
      pushAttempted := true
      runAttempted := false
      sinkContent := none }
  else
    let res := run_command_on_device env.remoteRun
    { success := res.1
      error := none
      sessionCreated := true
      statusHistory := ["running", "completed"]
      pushAttempted := true
      runAttempted := true
      sinkContent := if res.2 = "" then none else some res.2 }

/-! ## Parsing (`src/backend/trace_data_manager.py`, `parse_json_trace`)

The JSON decoder itself is the Python `json` library; it is abstracted
as a parameter `decode : String → Option Event` (a fixed pure function:
the same line always decodes to the same event or fails).  The file is
modelled as `Option (List String)`: `none` when it cannot be opened or
read (the outer `except` branch), `some lines` otherwise.  Each
undecodable non-blank line is reported to the log with
`logger.warning`; the number of such reports is the second component of
the result. -/

/-- The per-line loop of `parse_json_trace` (lines 36-45): strip the
line, skip it when blank, append its decode on success, and on
`JSONDecodeError` log a warning (counted) and continue. -/
def parseLines (decode : String → Option Event) : List String → List Event × Nat
  | [] => ([], 0)
  | l :: ls =>
    let rest := parseLines decode ls
    if l.trim = "" then rest
    else
      match decode l.trim with
      | some e => (e :: rest.1, rest.2)
      | none => (rest.1, rest.2 + 1)

/-- Model of `TraceDataManager.parse_json_trace` (lines 33-52): on any
failure to open or read the file (`file = none`) return the empty event
list (with nothing logged); otherwise run the per-line loop. -/
def parse_json_trace (decode : String → Option Event)
    (file : Option (List String)) : List Event × Nat :=
  match file with
  | none => ([], 0)
  | some lines => parseLines decode lines

/-- A line's contribution to the parsed event sequence: `none` when the
stripped line is blank or fails to decode, `some e` otherwise. -/
def decodeLine (decode : String → Option Event) (l : String) : Option Event :=
  if l.trim = "" then none else decode l.trim

/-- A line is malformed when it is non-blank but fails to decode. -/
def malformedLine (decode : String → Option Event) (l : String) : Bool :=
  !(l.trim == "") && (decode l.trim).isNone

/-! ## Aggregation (`src/backend/trace_data_manager.py`) -/

/-- One `aggregated[k].append(x)` step on a `defaultdict(list)`,
modelled as an association list in key insertion order: append to the
group of `k` when present, otherwise create a fresh singleton group at
the end. -/
def addToGroup {α : Type} (k : Value) (x : α) :
    List (Value × List α) → List (Value × List α)
  | [] => [(k, [x])]
  | (k', xs) :: rest =>
    if k = k' then (k', xs ++ [x]) :: rest
    else (k', xs) :: addToGroup k x rest

/-- The group stored under key `k` (empty when `k` has no group). -/
def groupOf {α : Type} (k : Value) : List (Value × List α) → List α
  | [] => []
  | (k', xs) :: rest => if k = k' then xs else groupOf k rest

/-- Sum of the sizes of all groups. -/
def groupSizes {α : Type} (groups : List (Value × List α)) : Nat :=
  (groups.map (fun g => g.2.length)).sum

/-- The loop body of `aggregate_by_pid` (lines 98-101): take
`event.get('pid')`; when it is not `None`, append the event to that
pid's group; otherwise skip the event. -/
def pidStep (acc : List (Value × List Event)) (e : Event) : List (Value × List Event) :=
  let pid := pyGet e "pid"
  if pid = .null then acc else addToGroup pid e acc

/-- Model of `TraceDataManager.aggregate_by_pid` (lines 87-103). -/
def aggregate_by_pid (events : List Event) : List (Value × List Event) :=
  events.foldl pidStep []

/-- The loop body of `aggregate_by_comm` (lines 116-118): group the
event by `event.get('comm', 'unknown')`. -/
def commStep (acc : List (Value × List Event)) (e : Event) : List (Value × List Event) :=
  addToGroup (pyGetD e "comm" (.str "unknown")) e acc

/-- Model of `TraceDataManager.aggregate_by_comm` (lines 105-120). -/
def aggregate_by_comm (events : List Event) : List (Value × List Event) :=
  events.foldl commStep []

/-- One `counts[k] += 1` step on a `defaultdict(int)`, modelled as an
association list in key insertion order. -/
def bumpCount (k : Value) : List (Value × Nat) → List (Value × Nat)
  | [] => [(k, 1)]
  | (k', n) :: rest =>
    if k = k' then (k', n + 1) :: rest
    else (k', n) :: bumpCount k rest

/-- The count stored under key `k` (zero when `k` has no entry). -/
def countOf (k : Value) : List (Value × Nat) → Nat
  | [] => 0
  | (k', n) :: rest => if k = k' then n else countOf k rest

/-- Sum of all stored counts. -/
def countTotal (counts : List (Value × Nat)) : Nat :=
  (counts.map Prod.snd).sum

/-- The loop body of `count_events` (lines 133-135): increment the
count of `event.get('event', 'unknown')`. -/
def countStep (acc : List (Value × Nat)) (e : Event) : List (Value × Nat) :=
  bumpCount (pyGetD e "event" (.str "unknown")) acc

/-- Model of `TraceDataManager.count_events` (lines 122-137): for each
event increment the count of `event.get('event', 'unknown')`. -/
def count_events (events : List Event) : List (Value × Nat) :=
  events.foldl countStep []

/-- The fields of the summary produced by
`TraceDataManager.summarize_trace` (lines 149-166) that the claims
refer to: `total_events = len(events)` and
`event_types = count_events(events)` over the parsed event list. -/
structure TraceSummary where
  total_events : Nat
  event_types : List (Value × Nat)
deriving Repr

/-- Model of `TraceDataManager.summarize_trace` (total-count and
per-type-count fields): parse the file, then record the event count and
the per-type counts. -/
def summarize_trace (decode : String → Option Event)
    (file : Option (List String)) : TraceSummary :=
  let events := (parse_json_trace decode file).1
  { total_events := events.length
    event_types := count_events events }

/-! ## Analysis utility (`src/analyze_trace.py`) -/

/-- The string Python's `e.get('comm', '')` hands to the substring test
in `filter_by_comm`: the stored string when `comm` is present with a
string value, the empty default when absent.  (A non-string `comm`
value would raise a `TypeError` in the source; theorems about this
function therefore restrict events to string-or-absent `comm`.) -/
def commOf (e : Event) : String :=
  match e.lookup "comm" with
  | some (.str s) => s
  | _ => ""

/-- An event's `comm` field is either absent or a string (the domain on
which `commOf` is a faithful model). -/
def strOrAbsentComm (e : Event) : Bool :=
  match e.lookup "comm" with
  | none => true
  | some (.str _) => true
  | some _ => false

/-- Model of `TraceAnalyzer.filter_by_comm` (lines 88-90):
`[e for e in events if comm in e.get('comm', '')]`. -/
def filter_by_comm (comm : String) (events : List Event) : List Event :=
  events.filter (fun e => strContains (commOf e) comm)

/-- Model of the `comm` clause of `TraceDataManager.filter_events`
(lines 81-82): `if comm:` — Python truthiness, so `None` and the empty
string skip the filter — else keep events with `comm in
e.get('comm', '')`. -/
def filter_events_comm (comm : Option String) (events : List Event) : List Event :=
  match comm with
  | none => events
  | some c =>
    if c = "" then events
    else events.filter (fun e => strContains (commOf e) c)

/-- Python `str(v)` as written by the `csv` module for a cell value:
strings verbatim, integers in decimal, booleans as `True` / `False`,
and `None` as the empty string. -/
def valueToCell : Value → String
  | .str s => s
  | .int n => toString n
  | .bool b => if b then "True" else "False"
  | .null => ""

/-- The set of keys occurring in any event (`all_keys.update(event.keys())`
over all events, lines 101-103), as a duplicate-free list. -/
def allKeys (events : List Event) : List String :=
  (events.foldl (fun acc e => acc ++ e.map Prod.fst) []).dedup

/-- One cell of the exported table: the stringified stored value, or an
explicit empty value when the event has no such key (the `DictWriter`
`restval`). -/
def csvCell (e : Event) (k : String) : String :=
  match e.lookup k with
  | some v => valueToCell v
  | none => ""

/-- Model of `TraceAnalyzer.export_csv` (lines 100-111): the header is
the sorted union of all keys (`keys = sorted(list(all_keys))`), and
each event becomes one row with a cell per header column. -/
def export_csv (events : List Event) : List String × List (List String) :=
  let keys := (allKeys events).insertionSort (fun a b => a ≤ b)
  (keys, events.map (fun e => keys.map (fun k => csvCell e k)))

/-! ### Timeline (`TraceAnalyzer.event_timeline`, lines 116-152) -/

/-- The grouping loop of `event_timeline` (lines 123-127): for each
event append `event.get('timestamp', 0)` to the list of the group keyed
by `event.get('event', 'unknown')`. -/
def timelineStep (acc : List (Value × List Value)) (e : Event) :
    List (Value × List Value) :=
  addToGroup (pyGetD e "event" (.str "unknown")) (pyGetD e "timestamp" (.int 0)) acc

/-- Grouping of `event_timeline`, folded over the events. -/
def timelineGroups (events : List Event) : List (Value × List Value) :=
  events.foldl timelineStep []

/-- Interpret a list of timestamp values as integers; `none` when some
value is not an integer (Python would raise on sorting or subtracting
mixed scalar types, so the report is only modelled on integer
timestamps). -/
def asInts : List Value → Option (List Int)
  | [] => some []
  | .int n :: rest => (asInts rest).map (fun ns => n :: ns)
  | _ => none

/-- Adjacent differences of a list:
`[timestamps[i+1] - timestamps[i] for i in range(len(timestamps)-1)]`. -/
def adjDiffs (l : List Int) : List Int :=
  List.zipWith (fun a b => a - b) l.tail l

/-- Minimum of a list of integers, `0` on the empty list (the source
only evaluates it on non-empty interval lists). -/
def listMin : List Int → Int
  | [] => 0
  | x :: xs => xs.foldl min x

/-- Maximum of a list of integers, `0` on the empty list. -/
def listMax : List Int → Int
  | [] => 0
  | x :: xs => xs.foldl max x

/-- The per-type section `event_timeline` writes (lines 134-146):
count, first, last, range over the ascending-sorted timestamps, and —
only when there is more than one timestamp — the interval list with its
mean, minimum and maximum. -/
structure TypeReport where
  count : Nat
  first : Int
  last : Int
  range : Int
  stats : Option (List Int × Rat × Int × Int)
deriving Repr, DecidableEq

/-- Ascending sort of a type's timestamps
(`timestamps = sorted(timeline[event_type])`). -/
def sortedTs (ns : List Int) : List Int :=
  ns.insertionSort (fun a b => a ≤ b)

/-- The report built from one type's integer timestamps: count, first,
last and range over the ascending-sorted list, and — only when more
than one timestamp is present (`if len(timestamps) > 1`) — the interval
list with its mean, minimum and maximum. -/
def mkTypeReport (ns : List Int) : TypeReport :=
  { count := (sortedTs ns).length
    first := (sortedTs ns).headD 0
    last := (sortedTs ns).getLastD 0
    range := (sortedTs ns).getLastD 0 - (sortedTs ns).headD 0
    stats :=
      if (sortedTs ns).length ≤ 1 then none
      else
        some (adjDiffs (sortedTs ns),
          ((adjDiffs (sortedTs ns)).sum : Rat) / ((adjDiffs (sortedTs ns)).length : Rat),
          listMin (adjDiffs (sortedTs ns)),
          listMax (adjDiffs (sortedTs ns))) }

/-- The report for one event type's timestamp list: interpret the
timestamps as integers, then build the per-type section. -/
def typeReport (ts : List Value) : Option TypeReport :=
  (asInts ts).map mkTypeReport

/-- Model of `TraceAnalyzer.event_timeline`: group the events' timestamp
values by event type, then produce each type's report.  (The source
iterates types in sorted key order; this model keeps first-seen group
order, which the per-type properties below do not depend on.) -/
def event_timeline (events : List Event) : List (Value × TypeReport) :=
  (timelineGroups events).filterMap (fun g => (typeReport g.2).map (fun r => (g.1, r)))

/-! ## Claim C1 — terminal session status

The claim says the terminal status recorded on the session matches the
run's outcome (`TimedOut` / `Failed` / `Completed`).  In the source the
session record's `status` is set to `'completed'` unconditionally after
the run returns (lines 200-204), whatever the outcome; only the
returned `success` flag reflects it. -/

/-- C1, counterexample: a run that times out still ends with recorded
terminal status `"completed"` — the same terminal status as a run that
exits zero — refuting that a timed-out run ends in a distinct
`TimedOut` status and that only zero-exit runs end in `Completed`. -/
theorem C1_status_counterexample :
    (execute_bpftrace ⟨true, true, ⟨[], .timedOut⟩, "trace.bt"⟩).statusHistory.getLast?
      = some "completed" ∧
    (execute_bpftrace ⟨true, true, ⟨[], .timedOut⟩, "trace.bt"⟩).success = false ∧
    (execute_bpftrace ⟨true, true, ⟨["x\n"], .exited 0⟩, "trace.bt"⟩).statusHistory.getLast?
      = some "completed" :=
  ⟨rfl, rfl, rfl⟩

/-- C1, amended: every run that enters `Running` (script present, push
succeeded) ends with recorded status `"completed"` regardless of
outcome; the outcome is reported only through the returned `success`
flag, which is true exactly when the remote command exited zero. -/
theorem C1_terminal_status (env : ExecEnv)
    (hs : env.scriptExists = true) (hp : env.pushOk = true) :
    (execute_bpftrace env).statusHistory = ["running", "completed"] ∧
    ((execute_bpftrace env).success = true ↔ env.remoteRun.outcome = .exited 0) := by
  unfold execute_bpftrace run_command_on_device
  rcases h : env.remoteRun.outcome with code | _ <;> simp [hs, hp, h]

/-- C1, witness: the amended statement evaluated on a concrete
environment whose remote run exits with status 7. -/
theorem C1_terminal_status_witness :
    (execute_bpftrace ⟨true, true, ⟨["a\n"], .exited 7⟩, "trace.bt"⟩).statusHistory
      = ["running", "completed"] ∧
    ((execute_bpftrace ⟨true, true, ⟨["a\n"], .exited 7⟩, "trace.bt"⟩).success = true ↔
      (⟨true, true, ⟨["a\n"], .exited 7⟩, "trace.bt"⟩ : ExecEnv).remoteRun.outcome
        = .exited 0) :=
  C1_terminal_status ⟨true, true, ⟨["a\n"], .exited 7⟩, "trace.bt"⟩ rfl rfl

/-! ## Claim C2 — missing local script

The claim says a session record is created already in a terminal
`Failed` state with cause `ScriptNotFound`.  In the source the missing
script branch (lines 142-148) returns a failure result *before* the
session record is inserted into `active_traces` (line 178): no session
record exists at all. -/

/-- C2, counterexample: with a nonexistent script, no session record is
created — refuting that a session record is "nevertheless created". -/
theorem C2_session_counterexample :
    (execute_bpftrace ⟨false, true, ⟨[], .exited 0⟩, "missing.bt"⟩).sessionCreated
      = false :=
  rfl

/-- C2, amended: when the local script does not exist, no session
record is created at all; the call returns a failure result whose error
names the missing script, no push or run is attempted, and no status
(in particular not `Running`) is ever recorded. -/
theorem C2_missing_script (env : ExecEnv) (h : env.scriptExists = false) :
    (execute_bpftrace env).sessionCreated = false ∧
    (execute_bpftrace env).error = some ("Script not found: " ++ env.scriptPath) ∧
    (execute_bpftrace env).success = false ∧
    (execute_bpftrace env).pushAttempted = false ∧
    (execute_bpftrace env).runAttempted = false ∧
    (execute_bpftrace env).statusHistory = [] := by
  unfold execute_bpftrace
  simp [h]

/-- C2, witness: the amended statement evaluated on a concrete
environment with a missing script. -/
theorem C2_missing_script_witness :
    (execute_bpftrace ⟨false, true, ⟨[], .exited 0⟩, "missing.bt"⟩).sessionCreated = false ∧
    (execute_bpftrace ⟨false, true, ⟨[], .exited 0⟩, "missing.bt"⟩).error
      = some ("Script not found: " ++ "missing.bt") ∧
    (execute_bpftrace ⟨false, true, ⟨[], .exited 0⟩, "missing.bt"⟩).success = false ∧
    (execute_bpftrace ⟨false, true, ⟨[], .exited 0⟩, "missing.bt"⟩).pushAttempted = false ∧
    (execute_bpftrace ⟨false, true, ⟨[], .exited 0⟩, "missing.bt"⟩).runAttempted = false ∧
    (execute_bpftrace ⟨false, true, ⟨[], .exited 0⟩, "missing.bt"⟩).statusHistory = [] :=
  C2_missing_script ⟨false, true, ⟨[], .exited 0⟩, "missing.bt"⟩ rfl

/-! ## Claim C3 — partial output on timeout

The claim says output chunks streamed before expiry are still written
to the session's output sink.  In the source the `TimeoutExpired`
branch of `_run_command_on_device` (lines 102-105) discards the
collected `output_lines` and returns the fixed string
`"Command timed out"`, which is what `execute_bpftrace` then writes to
the output file (lines 195-197). -/

/-- C3, counterexample: a run that streams the chunk `"partialchunk"`
and then times out leaves a sink containing only the fixed string
`"Command timed out"`, in which the streamed chunk does not occur —
refuting that partial captures are preserved. -/
theorem C3_partial_output_counterexample :
    (execute_bpftrace
        ⟨true, true, ⟨["partialchunk\n"], .timedOut⟩, "trace.bt"⟩).sinkContent
      = some "Command timed out" ∧
    strContains "Command timed out" "partialchunk" = false := by
  decide

/-- C3, amended: on wall-clock timeout the partial output collected so
far is discarded; whatever the remote process streamed, the session's
sink always receives exactly the string `"Command timed out"`. -/
theorem C3_timeout_sink (env : ExecEnv)
    (hs : env.scriptExists = true) (hp : env.pushOk = true)
    (ht : env.remoteRun.outcome = .timedOut) :
    (execute_bpftrace env).sinkContent = some "Command timed out" := by
  unfold execute_bpftrace run_command_on_device
  simp [hs, hp, ht]

/-- C3, witness: the amended statement evaluated on a concrete
environment that streams two chunks before timing out. -/
theorem C3_timeout_sink_witness :
    (execute_bpftrace
        ⟨true, true, ⟨["chunk one\n", "chunk two\n"], .timedOut⟩, "trace.bt"⟩).sinkContent
      = some "Command timed out" :=
  C3_timeout_sink ⟨true, true, ⟨["chunk one\n", "chunk two\n"], .timedOut⟩, "trace.bt"⟩
    rfl rfl rfl

/-! ## Claim C4 — per-line recovery during parsing -/

/-- A line is well-formed when it is non-blank after stripping and
decodes successfully. -/
def wellFormedLine (decode : String → Option Event) (l : String) : Bool :=
  !(l.trim == "") && (decode l.trim).isSome

/-- C4: parsing a stream whose lines contain `N` well-formed and `M`
malformed lines yields exactly the well-formed lines' events, in input
line order (hence an event sequence of length `N`), and a recorded
failure count of `M`; parsing is total, never aborting on a malformed
line. -/
theorem C4_parse_recovery (decode : String → Option Event) (ls : List String) :
    (parse_json_trace decode (some ls)).1 = ls.filterMap (decodeLine decode) ∧
    (parse_json_trace decode (some ls)).1.length
      = (ls.filter (wellFormedLine decode)).length ∧
    (parse_json_trace decode (some ls)).2
      = (ls.filter (malformedLine decode)).length := by
  show (parseLines decode ls).1 = _ ∧ (parseLines decode ls).1.length = _ ∧
    (parseLines decode ls).2 = _
  induction ls with
  | nil => simp [parseLines]
  | cons l ls ih =>
    obtain ⟨ih1, ih2, ih3⟩ := ih
    rw [ih1] at ih2
    by_cases hb : l.trim = ""
    · simp [parseLines, hb, decodeLine, malformedLine, wellFormedLine, ih1, ih2, ih3]
    · rcases hd : decode l.trim with _ | e <;>
        simp [parseLines, hb, hd, decodeLine, malformedLine, wellFormedLine, ih1, ih2, ih3]

/-! ## Claim C10 — unreadable trace file -/

/-- C10: when the trace file cannot be opened or read,
`parse_json_trace` returns the empty event list (and logs no parse
failures) rather than raising — the very output it produces for a
readable file with zero lines, so an unreadable trace is
indistinguishable at this interface from an empty one. -/
theorem C10_unreadable_file (decode : String → Option Event) :
    parse_json_trace decode none = ([], 0) ∧
    parse_json_trace decode none = parse_json_trace decode (some []) :=
  ⟨rfl, rfl⟩

/-! ## Grouping and counting lemmas (shared) -/

/-- Inserting into a group structure grows the total size by one. -/
theorem groupSizes_addToGroup {α : Type} (k : Value) (x : α)
    (groups : List (Value × List α)) :
    groupSizes (addToGroup k x groups) = groupSizes groups + 1 := by
  induction groups with
  | nil => simp [addToGroup, groupSizes]
  | cons g rest ih =>
    obtain ⟨k', xs⟩ := g
    by_cases h : k = k'
    · simp [addToGroup, h, groupSizes]
      omega
    · simp only [addToGroup, if_neg h, groupSizes, List.map_cons, List.sum_cons] at *
      omega

/-- Inserting under key `k` appends to the group of `k`. -/
theorem groupOf_addToGroup_self {α : Type} (k : Value) (x : α)
    (groups : List (Value × List α)) :
    groupOf k (addToGroup k x groups) = groupOf k groups ++ [x] := by
  induction groups with
  | nil => simp [addToGroup, groupOf]
  | cons g rest ih =>
    obtain ⟨k', xs⟩ := g
    by_cases h : k = k'
    · simp [addToGroup, groupOf, h]
    · simp [addToGroup, groupOf, h, ih]

/-- Inserting under another key leaves the group of `k` unchanged. -/
theorem groupOf_addToGroup_ne {α : Type} (k k' : Value) (x : α)
    (h : k' ≠ k) (groups : List (Value × List α)) :
    groupOf k (addToGroup k' x groups) = groupOf k groups := by
  have h' : ¬k = k' := Ne.symm h
  induction groups with
  | nil => simp [addToGroup, groupOf, h']
  | cons g rest ih =>
    obtain ⟨k'', xs⟩ := g
    by_cases h2 : k' = k''
    · subst h2
      simp [addToGroup, groupOf, h']
    · simp [addToGroup, groupOf, h2, ih]

/-- Bumping a count grows the total by one. -/
theorem countTotal_bumpCount (k : Value) (counts : List (Value × Nat)) :
    countTotal (bumpCount k counts) = countTotal counts + 1 := by
  induction counts with
  | nil => simp [bumpCount, countTotal]
  | cons c rest ih =>
    obtain ⟨k', n⟩ := c
    by_cases h : k = k'
    · simp [bumpCount, h, countTotal]
      omega
    · simp only [bumpCount, if_neg h, countTotal, List.map_cons, List.sum_cons] at *
      omega

/-- Bumping key `k` increments the count stored under `k`. -/
theorem countOf_bumpCount_self (k : Value) (counts : List (Value × Nat)) :
    countOf k (bumpCount k counts) = countOf k counts + 1 := by
  induction counts with
  | nil => simp [bumpCount, countOf]
  | cons c rest ih =>
    obtain ⟨k', n⟩ := c
    by_cases h : k = k'
    · simp [bumpCount, countOf, h]
    · simp [bumpCount, countOf, h, ih]

/-- Bumping another key leaves the count stored under `k` unchanged. -/
theorem countOf_bumpCount_ne (k k' : Value) (h : k' ≠ k)
    (counts : List (Value × Nat)) :
    countOf k (bumpCount k' counts) = countOf k counts := by
  have h' : ¬k = k' := Ne.symm h
  induction counts with
  | nil => simp [bumpCount, countOf, h']
  | cons c rest ih =>
    obtain ⟨k'', n⟩ := c
    by_cases h2 : k' = k''
    · subst h2
      simp [bumpCount, countOf, h']
    · simp [bumpCount, countOf, h2, ih]

/-- Folding `commStep` grows the total group size by the number of
events folded in. -/
theorem groupSizes_foldl_commStep (events : List Event)
    (acc : List (Value × List Event)) :
    groupSizes (events.foldl commStep acc) = groupSizes acc + events.length := by
  induction events generalizing acc with
  | nil => simp
  | cons e es ih =>
    simp only [List.foldl_cons, List.length_cons]
    rw [ih, commStep, groupSizes_addToGroup]
    omega

/-- Folding `pidStep` grows the total group size by the number of
events that carry a pid. -/
theorem groupSizes_foldl_pidStep (events : List Event)
    (acc : List (Value × List Event)) :
    groupSizes (events.foldl pidStep acc)
      = groupSizes acc
        + (events.filter (fun e => !(pyGet e "pid" == Value.null))).length := by
  induction events generalizing acc with
  | nil => simp
  | cons e es ih =>
    by_cases h : pyGet e "pid" = Value.null
    · simp [pidStep, h, ih]
    · simp only [List.foldl_cons, List.filter_cons]
      rw [ih, pidStep]
      simp [h, groupSizes_addToGroup]
      omega

/-- Folding `commStep`: the group stored under `k` collects, in input
order, exactly the events whose comm key (with the `unknown` default)
is `k`. -/
theorem groupOf_foldl_commStep (k : Value) (events : List Event)
    (acc : List (Value × List Event)) :
    groupOf k (events.foldl commStep acc)
      = groupOf k acc
        ++ events.filter (fun e => pyGetD e "comm" (.str "unknown") == k) := by
  induction events generalizing acc with
  | nil => simp
  | cons e es ih =>
    simp only [List.foldl_cons, List.filter_cons]
    by_cases h : pyGetD e "comm" (.str "unknown") = k
    · rw [ih, commStep, h, groupOf_addToGroup_self]
      simp [h]
    · rw [ih, commStep, groupOf_addToGroup_ne _ _ _ h]
      simp [h]

/-- Folding `countStep` grows the count total by the number of events
folded in. -/
theorem countTotal_foldl_countStep (events : List Event)
    (acc : List (Value × Nat)) :
    countTotal (events.foldl countStep acc) = countTotal acc + events.length := by
  induction events generalizing acc with
  | nil => simp
  | cons e es ih =>
    simp only [List.foldl_cons, List.length_cons]
    rw [ih, countStep, countTotal_bumpCount]
    omega

/-- Folding `countStep`: the count stored under `k` counts exactly the
events whose event key (with the `unknown` default) is `k`. -/
theorem countOf_foldl_countStep (k : Value) (events : List Event)
    (acc : List (Value × Nat)) :
    countOf k (events.foldl countStep acc)
      = countOf k acc
        + (events.filter (fun e => pyGetD e "event" (.str "unknown") == k)).length := by
  induction events generalizing acc with
  | nil => simp
  | cons e es ih =>
    simp only [List.foldl_cons, List.filter_cons]
    by_cases h : pyGetD e "event" (.str "unknown") = k
    · rw [ih, countStep, h, countOf_bumpCount_self]
      simp [h]
      omega
    · rw [ih, countStep, countOf_bumpCount_ne _ _ h]
      simp [h]

/-! ## Claim C5 — grouping totals and the `unknown` sentinel

The claim says both `aggregate_by_pid` and `aggregate_by_comm` place
events with an absent grouping field into an `unknown` group and that
group sizes always sum to the total event count.  Only
`aggregate_by_comm` does: `aggregate_by_pid` (lines 98-101) skips
events whose `pid` is absent, so they land in no group at all. -/

/-- C5, counterexample: one event without a `pid` field — its pid
grouping is empty (no `unknown` group), and the group sizes sum to 0
while the event count is 1. -/
theorem C5_pid_unknown_counterexample :
    aggregate_by_pid [[("comm", Value.str "sh")]] = [] ∧
    groupSizes (aggregate_by_pid [[("comm", Value.str "sh")]]) = 0 ∧
    ([[("comm", Value.str "sh")]] : List Event).length = 1 := by
  decide

/-- C5, amended: `aggregate_by_comm` groups events with an absent
`comm` under the declared `unknown` sentinel and its group sizes sum to
the total event count; `aggregate_by_pid` has no `unknown` group —
events without a pid are dropped, so its group sizes sum only to the
number of events carrying a pid. -/
theorem C5_group_totals (events : List Event) :
    groupSizes (aggregate_by_comm events) = events.length ∧
    groupOf (.str "unknown") (aggregate_by_comm events)
      = events.filter (fun e => pyGetD e "comm" (.str "unknown") == .str "unknown") ∧
    (∀ e : Event, e.lookup "comm" = none →
      pyGetD e "comm" (.str "unknown") = .str "unknown") ∧
    groupSizes (aggregate_by_pid events)
      = (events.filter (fun e => !(pyGet e "pid" == Value.null))).length := by
  refine ⟨?_, ?_, ?_, ?_⟩
  · simpa [aggregate_by_comm, groupSizes] using groupSizes_foldl_commStep events []
  · simpa [aggregate_by_comm, groupOf] using
      groupOf_foldl_commStep (.str "unknown") events []
  · intro e he
    simp [pyGetD, he]
  · simpa [aggregate_by_pid, groupSizes] using groupSizes_foldl_pidStep events []

/-- C5, witness: the amended statement evaluated on three concrete
events (one with pid and comm, one with pid only, one empty). -/
theorem C5_group_totals_witness :
    groupSizes (aggregate_by_comm
        [[("comm", Value.str "sh"), ("pid", Value.int 1)], [("pid", Value.int 2)], []])
      = ([[("comm", Value.str "sh"), ("pid", Value.int 1)], [("pid", Value.int 2)], []]
          : List Event).length ∧
    groupOf (.str "unknown") (aggregate_by_comm
        [[("comm", Value.str "sh"), ("pid", Value.int 1)], [("pid", Value.int 2)], []])
      = ([[("comm", Value.str "sh"), ("pid", Value.int 1)], [("pid", Value.int 2)], []]
          : List Event).filter
          (fun e => pyGetD e "comm" (.str "unknown") == .str "unknown") ∧
    pyGetD [] "comm" (.str "unknown") = .str "unknown" ∧
    groupSizes (aggregate_by_pid
        [[("comm", Value.str "sh"), ("pid", Value.int 1)], [("pid", Value.int 2)], []])
      = (([[("comm", Value.str "sh"), ("pid", Value.int 1)], [("pid", Value.int 2)], []]
          : List Event).filter (fun e => !(pyGet e "pid" == Value.null))).length :=
  ⟨(C5_group_totals _).1, (C5_group_totals _).2.1,
    (C5_group_totals
      [[("comm", Value.str "sh"), ("pid", Value.int 1)], [("pid", Value.int 2)], []]).2.2.1
      [] rfl,
    (C5_group_totals _).2.2.2⟩

/-! ## Claim C6 — per-type counts and the summary total -/

/-- C6: in the summary, the per-type counts sum to `total_events`, the
`unknown` bucket counts exactly the events whose event key (with the
`unknown` default) is `unknown`, and every event lacking an `event`
field is keyed to that bucket. -/
theorem C6_count_totals (decode : String → Option Event)
    (file : Option (List String)) :
    countTotal (summarize_trace decode file).event_types
      = (summarize_trace decode file).total_events ∧
    countOf (.str "unknown") (summarize_trace decode file).event_types
      = ((parse_json_trace decode file).1.filter
          (fun e => pyGetD e "event" (.str "unknown") == .str "unknown")).length ∧
    (∀ e : Event, e.lookup "event" = none →
      pyGetD e "event" (.str "unknown") = .str "unknown") := by
  refine ⟨?_, ?_, ?_⟩
  · simpa [summarize_trace, count_events, countTotal] using
      countTotal_foldl_countStep (parse_json_trace decode file).1 []
  · simpa [summarize_trace, count_events, countOf] using
      countOf_foldl_countStep (.str "unknown") (parse_json_trace decode file).1 []
  · intro e he
    simp [pyGetD, he]

/-- C6, witness: the statement evaluated with a concrete decoder that
decodes every line to the empty event, on a file with two non-blank
lines and one blank line. -/
theorem C6_count_totals_witness :
    countTotal (summarize_trace (fun _ => some []) (some ["a", " ", "b"])).event_types
      = (summarize_trace (fun _ => some []) (some ["a", " ", "b"])).total_events ∧
    countOf (.str "unknown")
        (summarize_trace (fun _ => some []) (some ["a", " ", "b"])).event_types
      = ((parse_json_trace (fun _ => some []) (some ["a", " ", "b"])).1.filter
          (fun e => pyGetD e "event" (.str "unknown") == .str "unknown")).length ∧
    pyGetD [] "event" (.str "unknown") = .str "unknown" :=
  ⟨(C6_count_totals _ _).1, (C6_count_totals _ _).2.1,
    (C6_count_totals (fun _ => some []) (some ["a", " ", "b"])).2.2 [] rfl⟩

/-! ## Claim C8 — tabular export -/

/-- Membership in the key-accumulating fold of `export_csv`. -/
theorem mem_foldl_keys (x : String) (events : List Event) (acc : List String) :
    (x ∈ events.foldl (fun a e => a ++ e.map Prod.fst) acc)
      ↔ x ∈ acc ∨ ∃ e ∈ events, x ∈ e.map Prod.fst := by
  induction events generalizing acc with
  | nil => simp
  | cons e es ih =>
    rw [List.foldl_cons, ih]
    simp [List.mem_append, or_assoc]

/-- C8: the export's column list is duplicate-free, sorted
lexicographically, and contains exactly the keys occurring in some
event; every row is the per-column cell list of its event, a cell for a
key the event lacks is the explicit empty value; and the export is a
pure function of the event list, so exporting the same list twice is
byte-identical. -/
theorem C8_export_csv (events : List Event) :
    (export_csv events).1.Sorted (fun a b => a ≤ b) ∧
    (export_csv events).1.Nodup ∧
    (∀ k : String, k ∈ (export_csv events).1 ↔ ∃ e ∈ events, k ∈ e.map Prod.fst) ∧
    (export_csv events).2
      = events.map (fun e => (export_csv events).1.map (fun k => csvCell e k)) ∧
    (∀ (e : Event) (k : String), e.lookup k = none → csvCell e k = "") ∧
    export_csv events = export_csv events := by
  have h1 : (export_csv events).1
      = (allKeys events).insertionSort (fun a b => a ≤ b) := rfl
  refine ⟨?_, ?_, ?_, rfl, ?_, rfl⟩
  · rw [h1]
    exact List.sorted_insertionSort _ _
  · rw [h1]
    exact ((List.perm_insertionSort _ _).nodup_iff).mpr (List.nodup_dedup _)
  · intro k
    rw [h1, (List.perm_insertionSort _ _).mem_iff, allKeys, List.mem_dedup,
      mem_foldl_keys]
    simp
  · intro e k h
    simp [csvCell, h]

/-- C8, witness: the statement evaluated on two concrete events with
overlapping key sets, the membership part at the key `"a"` and the
empty-cell part at an event lacking `"a"`. -/
theorem C8_export_csv_witness :
    (export_csv [[("b", Value.int 2)], [("a", Value.str "x"), ("b", Value.null)]]).1.Sorted
      (fun a b => a ≤ b) ∧
    (export_csv [[("b", Value.int 2)], [("a", Value.str "x"), ("b", Value.null)]]).1.Nodup ∧
    ("a" ∈ (export_csv [[("b", Value.int 2)], [("a", Value.str "x"), ("b", Value.null)]]).1
      ↔ ∃ e ∈ ([[("b", Value.int 2)], [("a", Value.str "x"), ("b", Value.null)]] : List Event),
          "a" ∈ e.map Prod.fst) ∧
    csvCell [("b", Value.int 2)] "a" = "" :=
  ⟨(C8_export_csv _).1, (C8_export_csv _).2.1,
    (C8_export_csv [[("b", Value.int 2)], [("a", Value.str "x"), ("b", Value.null)]]).2.2.1 "a",
    (C8_export_csv [[("b", Value.int 2)], [("a", Value.str "x"), ("b", Value.null)]]).2.2.2.2.1
      [("b", Value.int 2)] "a" rfl⟩

/-! ## Claim C9 — substring filter on the process name -/

/-- The empty needle is contained in every string (Python:
`'' in s` is always true). -/
theorem strContains_empty_needle (hay : String) : strContains hay "" = true := by
  have h0 : (0 : Nat) ∈ List.range (hay.data.length + 1) := by
    simp [List.mem_range]
  have hpre : (List.isPrefixOf ([] : List Char) (hay.data.drop 0)) = true := by
    cases hay.data.drop 0 <;> rfl
  simp only [strContains, listContainsSub, List.any_eq_true]
  exact ⟨0, h0, hpre⟩

/-- A non-empty needle is never contained in the empty string (Python:
`c in ''` is false for non-empty `c`). -/
theorem strContains_empty_hay (c : String) (h : c ≠ "") :
    strContains "" c = false := by
  rcases hd : c.data with _ | ⟨x, xs⟩
  · exact absurd (String.ext hd) h
  · simp [strContains, listContainsSub, hd, List.isPrefixOf]

/-- C9: filtering by the empty-string substring — through
`TraceAnalyzer.filter_by_comm` as well as both empty-`comm` shapes of
`TraceDataManager.filter_events` — returns every event, including
events without a `comm` field; filtering by a non-empty substring
excludes every event lacking `comm`; the filter always preserves the
original relative order (it yields a sublist); and for non-empty
substrings both functions agree.  The events are restricted to
string-or-absent `comm` values, the domain on which the embedding
matches the source (a non-string `comm` raises in Python). -/
theorem C9_comm_filter (events : List Event) (c : String) (hc : c ≠ "")
    (_hstr : events.all strOrAbsentComm = true) :
    filter_by_comm "" events = events ∧
    filter_events_comm none events = events ∧
    filter_events_comm (some "") events = events ∧
    (∀ e ∈ events, e.lookup "comm" = none → e ∉ filter_by_comm c events) ∧
    (filter_by_comm c events).Sublist events ∧
    filter_events_comm (some c) events = filter_by_comm c events := by
  refine ⟨?_, rfl, ?_, ?_, ?_, ?_⟩
  · exact List.filter_eq_self.mpr (fun e _ => strContains_empty_needle _)
  · simp [filter_events_comm]
  · intro e _ hnone hmem
    have hpred := (List.mem_filter.mp hmem).2
    have hcomm : commOf e = "" := by
      simp [commOf, hnone]
    rw [hcomm, strContains_empty_hay c hc] at hpred
    exact Bool.false_ne_true hpred
  · exact List.filter_sublist events
  · simp [filter_events_comm, filter_by_comm, hc]

/-- C9, witness: the statement evaluated on two concrete events (one
with a `comm` string, one without) and the non-empty substring
`"go"`. -/
theorem C9_comm_filter_witness :
    filter_by_comm "" [[("comm", Value.str "zygote")], [("pid", Value.int 3)]]
      = [[("comm", Value.str "zygote")], [("pid", Value.int 3)]] ∧
    ([("pid", Value.int 3)] : Event)
      ∉ filter_by_comm "go" [[("comm", Value.str "zygote")], [("pid", Value.int 3)]] ∧
    (filter_by_comm "go" [[("comm", Value.str "zygote")], [("pid", Value.int 3)]]).Sublist
      [[("comm", Value.str "zygote")], [("pid", Value.int 3)]] :=
  ⟨(C9_comm_filter _ "go" (by decide) (by decide)).1,
    (C9_comm_filter [[("comm", Value.str "zygote")], [("pid", Value.int 3)]] "go"
        (by decide) (by decide)).2.2.2.1
      [("pid", Value.int 3)] (by simp) rfl,
    (C9_comm_filter _ "go" (by decide) (by decide)).2.2.2.2.1⟩

/-! ## Claim C7 — timeline interval statistics

The claim says interval statistics are omitted for any type with
exactly one *timestamped* event.  The source reads every event's
timestamp with `event.get('timestamp', 0)` (line 126): events without
a timestamp contribute the default `0`, so the `len(timestamps) > 1`
guard counts *all* events of the type, timestamped or not. -/

/-- Adjacent differences shorten a list by exactly one. -/
theorem adjDiffs_length (l : List Int) : (adjDiffs l).length = l.length - 1 := by
  cases l with
  | nil => simp [adjDiffs]
  | cons x xs => simp [adjDiffs]

/-- C7, counterexample: two events of type `"open"`, of which exactly
one carries a `timestamp` field — yet the timeline still emits interval
statistics for `"open"` (over the timestamps `[100, 0]`, the second
defaulted), refuting that a type with exactly one timestamped event
has its interval statistics omitted. -/
theorem C7_single_timestamp_counterexample :
    (([[("event", Value.str "open"), ("timestamp", Value.int 100)],
        [("event", Value.str "open")]] : List Event).filter
        (fun e => (e.lookup "timestamp").isSome)).length = 1 ∧
    ((event_timeline
        [[("event", Value.str "open"), ("timestamp", Value.int 100)],
         [("event", Value.str "open")]]).map
        (fun p => (p.1, p.2.stats.isSome)))
      = [(Value.str "open", true)] := by
  decide

/-- C7, amended: every per-type timeline report is computed over an
ascending-sorted timestamp list (one timestamp per event of the type,
defaulting to `0` when the field is absent); interval statistics are
omitted exactly when the type has at most one event; and when they are
present the interval list is the non-empty list of adjacent differences
of the sorted timestamps, with its mean taken over that non-empty
length — so no statistic is ever computed over an empty interval list
and no division by zero occurs. -/
theorem C7_timeline_intervals (events : List Event) (k : Value) (r : TypeReport)
    (h : (k, r) ∈ event_timeline events) :
    (r.stats = none ↔ r.count ≤ 1) ∧
    (∀ ivs m mi ma, r.stats = some (ivs, m, mi, ma) →
      ivs ≠ [] ∧ ivs.length + 1 = r.count ∧
      m = (ivs.sum : Rat) / (ivs.length : Rat) ∧
      mi = listMin ivs ∧ ma = listMax ivs) ∧
    (∃ s : List Int, s.Sorted (fun a b => a ≤ b) ∧ s.length = r.count ∧
      r.first = s.headD 0 ∧ r.last = s.getLastD 0 ∧
      r.range = s.getLastD 0 - s.headD 0 ∧
      (∀ ivs m mi ma, r.stats = some (ivs, m, mi, ma) → ivs = adjDiffs s)) := by
  obtain ⟨g, hg, hmap⟩ := List.mem_filterMap.mp h
  obtain ⟨r', hr', heq⟩ := Option.map_eq_some'.mp hmap
  rw [Prod.mk.injEq] at heq
  obtain ⟨hk, hr2⟩ := heq
  subst hr2
  rw [typeReport] at hr'
  obtain ⟨ns, _hns, hrec⟩ := Option.map_eq_some'.mp hr'
  subst hrec
  refine ⟨?_, ?_, ?_⟩
  · by_cases hs : (sortedTs ns).length ≤ 1 <;> simp [mkTypeReport, hs]
  · intro ivs m mi ma hst
    by_cases hs : (sortedTs ns).length ≤ 1
    · simp [mkTypeReport, hs] at hst
    · simp only [mkTypeReport, if_neg hs, Option.some.injEq, Prod.mk.injEq] at hst
      obtain ⟨h1, h2, h3, h4⟩ := hst
      subst h1 h2 h3 h4
      refine ⟨?_, ?_, rfl, rfl, rfl⟩
      · rw [← List.length_pos, adjDiffs_length]
        omega
      · simp [mkTypeReport, adjDiffs_length]
        omega
  · refine ⟨sortedTs ns, List.sorted_insertionSort _ _, rfl, rfl, rfl, rfl, ?_⟩
    intro ivs m mi ma hst
    by_cases hs : (sortedTs ns).length ≤ 1
    · simp [mkTypeReport, hs] at hst
    · simp only [mkTypeReport, if_neg hs, Option.some.injEq, Prod.mk.injEq] at hst
      exact hst.1.symm

/-- C7, witness: the amended statement evaluated on three concrete
events of type `"a"` with timestamps 10, 30, 20, whose report sorts
them to `[10, 20, 30]` and carries interval statistics over
`[10, 10]`. -/
theorem C7_timeline_intervals_witness :
    ((⟨3, 10, 30, 20, some ([10, 10], 10, 10, 10)⟩ : TypeReport).stats = none
      ↔ (⟨3, 10, 30, 20, some ([10, 10], 10, 10, 10)⟩ : TypeReport).count ≤ 1) ∧
    (∀ ivs m mi ma,
      (⟨3, 10, 30, 20, some ([10, 10], 10, 10, 10)⟩ : TypeReport).stats
          = some (ivs, m, mi, ma) →
      ivs ≠ [] ∧
      ivs.length + 1 = (⟨3, 10, 30, 20, some ([10, 10], 10, 10, 10)⟩ : TypeReport).count ∧
      m = (ivs.sum : Rat) / (ivs.length : Rat) ∧
      mi = listMin ivs ∧ ma = listMax ivs) ∧
    (∃ s : List Int, s.Sorted (fun a b => a ≤ b) ∧
      s.length = (⟨3, 10, 30, 20, some ([10, 10], 10, 10, 10)⟩ : TypeReport).count ∧
      (⟨3, 10, 30, 20, some ([10, 10], 10, 10, 10)⟩ : TypeReport).first = s.headD 0 ∧
      (⟨3, 10, 30, 20, some ([10, 10], 10, 10, 10)⟩ : TypeReport).last = s.getLastD 0 ∧
      (⟨3, 10, 30, 20, some ([10, 10], 10, 10, 10)⟩ : TypeReport).range
          = s.getLastD 0 - s.headD 0 ∧
      (∀ ivs m mi ma,
        (⟨3, 10, 30, 20, some ([10, 10], 10, 10, 10)⟩ : TypeReport).stats
            = some (ivs, m, mi, ma) → ivs = adjDiffs s)) :=
  C7_timeline_intervals
    [[("event", Value.str "a"), ("timestamp", Value.int 10)],
     [("event", Value.str "a"), ("timestamp", Value.int 30)],
     [("event", Value.str "a"), ("timestamp", Value.int 20)]]
    (Value.str "a")
    ⟨3, 10, 30, 20, some ([10, 10], 10, 10, 10)⟩
    (by
      simp [event_timeline, timelineGroups, timelineStep, addToGroup, typeReport, asInts,
        mkTypeReport, sortedTs, adjDiffs, listMin, listMax, pyGetD, List.insertionSort,
        List.orderedInsert]
      norm_num)

end EBPF
